import Mathlib

/-!
# MAAP eoAPI: verification of the STAC generation/ingestion pipeline spec

This file embeds, in Lean 4, the parts of the MAAP-Project/maap-eoapi
repository that the specification talks about:

* the `DpsStacItemGenerator` CDK construct
  (`cdk/constructs/DpsStacItemGenerator/index.ts`), embedded directly from
  the TypeScript source: queue/lambda timeout wiring, dead-letter queue
  configuration, SQS event source configuration, and the cross-account
  SNS topic resource policy; and
* the event-driven STAC loading pipeline (CatalogRecordStore, BatchLoader,
  AccessControlGuard, ItemGenerator default-collection rule).  The pipeline
  logic itself is implemented in the external `eoapi-cdk` package (the repo
  only instantiates `StacLoader` with `batchSize: 500` and
  `CREATE_COLLECTIONS_IF_MISSING=TRUE` in `cdk/PgStacInfra.ts`), so those
  parts are modelled from the specification text, as flagged on each
  definition.
-/

namespace MaapEoapi

/-! ## Embedding of `cdk/constructs/DpsStacItemGenerator/index.ts` -/

/-- One entry of `allowedAccountBucketPairs`:
`{accountId: "123456789012", bucketArn: "arn:aws:s3:::bucket-name"}`. -/
structure AccountBucketPair where
  accountId : String
  bucketArn : String
deriving DecidableEq

/-- The construct props (`DpsStacItemGeneratorProps`).  Optional numeric
props are `Option Nat`; `lambda.Runtime` and VPC wiring do not affect the
claims and are omitted. -/
structure DpsStacItemGeneratorProps where
  lambdaTimeoutSeconds : Option Nat
  memorySize : Option Nat
  maxConcurrency : Option Nat
  batchSize : Option Nat
  environment : List (String × String)
  itemLoadTopicArn : String
  allowedAccountBucketPairs : Option (List AccountBucketPair)
  roleArn : String
deriving DecidableEq

/-- An IAM policy statement as assembled by the construct (the fields the
construct sets: sid, effect, principals, actions, resources and the
`StringEquals` condition map). -/
structure PolicyStatement where
  sid : String
  isAllow : Bool
  principals : List String
  actions : List String
  resources : List String
  conditionStringEquals : List (String × String)
deriving DecidableEq

/-- SQS queue configuration as set by the construct. -/
structure QueueConfig where
  visibilityTimeoutSeconds : Option Nat
  deadLetterMaxReceiveCount : Option Nat
  retentionPeriodDays : Option Nat
deriving DecidableEq

/-- Lambda function configuration as set by the construct. -/
structure LambdaConfig where
  timeoutSeconds : Nat
  memorySize : Nat
  handler : String
deriving DecidableEq

/-- SQS event-source configuration as set by the construct. -/
structure EventSourceConfig where
  batchSize : Nat
  reportBatchItemFailures : Bool
  maxConcurrency : Nat
deriving DecidableEq

/-- The resources assembled by the `DpsStacItemGenerator` constructor. -/
structure DpsStacItemGeneratorResources where
  deadLetterQueue : QueueConfig
  queue : QueueConfig
  topicPolicyStatements : List PolicyStatement
  lambdaFunction : LambdaConfig
  eventSource : EventSourceConfig
deriving DecidableEq

/-- The policy statement `configureCrossAccountAccess` assembles for the
pair at a given index: an ALLOW statement with sid
`AllowAccountBucketPair${index}Publish`, principal `s3.amazonaws.com`,
action `SNS:Publish`, resource the topic ARN, and a `StringEquals`
condition on `aws:SourceArn` only (the `aws:SourceAccount` condition is
commented out in the source). -/
def crossAccountStatement (topicArn : String)
    (p : Nat × AccountBucketPair) : PolicyStatement :=
  { sid := "AllowAccountBucketPair" ++ toString p.1 ++ "Publish"
    isAllow := true
    principals := ["s3.amazonaws.com"]
    actions := ["SNS:Publish"]
    resources := [topicArn]
    conditionStringEquals := [("aws:SourceArn", p.2.bucketArn)] }

/-- `configureCrossAccountAccess(props)`: for a non-empty
`allowedAccountBucketPairs` list, one statement per pair via
`crossAccountStatement`; an empty or absent list adds no statement. -/
def configureCrossAccountAccess (props : DpsStacItemGeneratorProps)
    (topicArn : String) : List PolicyStatement :=
  match props.allowedAccountBucketPairs with
  | none => []
  | some pairs =>
    if pairs.length = 0 then []
    else pairs.enum.map (crossAccountStatement topicArn)

/-- The `DpsStacItemGenerator` constructor body: applies the prop defaults
(`timeoutSeconds = lambdaTimeoutSeconds ?? 120`, `batchSize ?? 10`,
`memorySize ?? 1024`, `maxConcurrency ?? 100`) and assembles the dead-letter
queue (14-day retention), the main queue (visibility timeout
`timeoutSeconds + 10`, `maxReceiveCount: 5` to the DLQ), the topic resource
policy, the lambda function (timeout `timeoutSeconds`) and the SQS event
source (`reportBatchItemFailures: true`).  `topicArn` stands for the ARN
the cloud assigns to `this.topic`. -/
def dpsStacItemGeneratorConstruct (props : DpsStacItemGeneratorProps)
    (topicArn : String) : DpsStacItemGeneratorResources :=
  let timeoutSeconds := props.lambdaTimeoutSeconds.getD 120
  let batchSize := props.batchSize.getD 10
  { deadLetterQueue :=
      { visibilityTimeoutSeconds := none
        deadLetterMaxReceiveCount := none
        retentionPeriodDays := some 14 }
    queue :=
      { visibilityTimeoutSeconds := some (timeoutSeconds + 10)
        deadLetterMaxReceiveCount := some 5
        retentionPeriodDays := none }
    topicPolicyStatements := configureCrossAccountAccess props topicArn
    lambdaFunction :=
      { timeoutSeconds := timeoutSeconds
        memorySize := props.memorySize.getD 1024
        handler := "dps_stac_item_generator.handler.handler" }
    eventSource :=
      { batchSize := batchSize
        reportBatchItemFailures := true
        maxConcurrency := props.maxConcurrency.getD 100 } }

/-- `StacLoader` instantiation parameters in `cdk/PgStacInfra.ts`:
`batchSize: 500`. -/
def stacLoaderDeploymentBatchSize : Nat := 500

/-! ## The STAC loading pipeline

The pipeline logic (`StacLoader` / BatchLoader, CatalogRecordStore,
AccessControlGuard, ItemGenerator) is implemented in the external
`eoapi-cdk` package; this repository only instantiates and parameterizes
it.  The definitions below are therefore modelled from the specification
(§3, §4.1–§4.5), as flagged on each one. -/

/-- Dead-letter reasons of the error taxonomy (spec §7). -/
inductive Reason where
  | Unauthorized
  | SchemaInvalid
  | RetriesExhausted
  | CollectionNotFound
deriving DecidableEq

/-- Modelled from the spec: a Collection record (§3) — id, mandatory
`owner` identity, metadata map, timestamps. -/
structure Collection where
  id : String
  owner : String
  metadata : List (String × String)
  createdAt : Nat
  updatedAt : Nat
deriving DecidableEq

/-- Modelled from the spec: an Item record (§3) — id unique within its
collection, a back-reference `collectionId`, an asset map, a property map,
and the store-managed `updatedAt` timestamp (§8, idempotent upsert). -/
structure Item where
  id : String
  collectionId : String
  assets : List (String × String)
  properties : List (String × String)
  updatedAt : Nat
deriving DecidableEq

/-- Modelled from the spec: the CatalogRecordStore state (§4.4) — the
persisted Collections and Items. -/
structure Store where
  collections : List Collection
  items : List Item
deriving DecidableEq

/-- Modelled from the spec: `getCollection(id)` point lookup (§4.4). -/
def Store.getCollection (σ : Store) (cid : String) : Option Collection :=
  σ.collections.find? fun c => c.id == cid

/-- Modelled from the spec: `getItem(collectionId, itemId)` point lookup
(§4.4). -/
def Store.getItem (σ : Store) (cid iid : String) : Option Item :=
  σ.items.find? fun it => it.collectionId == cid && it.id == iid

/-- Modelled from the spec: the payload of a Submission (§3) — one
Collection-create-or-update or one Item-upsert. -/
inductive SubmissionBody where
  | collectionSub (collectionId : String) (metadata : List (String × String))
  | itemSub (collectionId : String) (itemId : String)
      (assets : List (String × String)) (properties : List (String × String))
deriving DecidableEq

/-- The collection a submission targets. -/
def SubmissionBody.targetCollectionId : SubmissionBody → String
  | collectionSub cid _ => cid
  | itemSub cid _ _ _ => cid

/-- Modelled from the spec: a Submission (§3) — a payload wrapped with a
delivery attempt counter and origin identity. -/
structure Submission where
  body : SubmissionBody
  originIdentity : String
  attempts : Nat
deriving DecidableEq

/-- The operation kind fed to the AccessControlGuard (§4.3). -/
inductive OpKind where
  | create
  | update
deriving DecidableEq

/-- The AccessControlGuard verdict (§4.3). -/
inductive GuardResult where
  | ALLOW
  | DENY
deriving DecidableEq

/-- Modelled from the spec: the AccessControlGuard contract (§4.3) —
given (originIdentity, targetCollectionId, operationKind), ALLOW if
originIdentity equals the collection's recorded `owner`, or the collection
does not yet exist and the operation kind is create; else DENY. -/
def accessControlGuard (σ : Store) (originIdentity targetCollectionId : String)
    (operationKind : OpKind) : GuardResult :=
  match σ.getCollection targetCollectionId with
  | some c => if c.owner = originIdentity then .ALLOW else .DENY
  | none => if operationKind = .create then .ALLOW else .DENY

/-- Write one key/value into a metadata map: overwrite the key if present,
append it otherwise. -/
def setMeta (md : List (String × String)) (kv : String × String) :
    List (String × String) :=
  if md.any fun p => p.1 == kv.1 then
    md.map fun p => if p.1 == kv.1 then (p.1, kv.2) else p
  else md ++ [kv]

/-- Modelled from the spec: merging metadata fields on a collection update
(§4.2 step 2) — every field of the submission overwrites or extends the
stored metadata; stored fields not mentioned are kept. -/
def mergeMetadata (stored incoming : List (String × String)) :
    List (String × String) :=
  incoming.foldl setMeta stored

/-- Modelled from the spec: `upsertCollection` (§4.4) — creates if absent
(with the given owner and timestamps), else updates metadata fields only,
never touching `owner` or `createdAt` post-creation. -/
def upsertCollection (σ : Store) (cid ownerIfNew : String)
    (md : List (String × String)) (now : Nat) : Store :=
  match σ.getCollection cid with
  | some _ =>
    { σ with collections := σ.collections.map fun c =>
        if c.id == cid then
          { c with metadata := mergeMetadata c.metadata md, updatedAt := now }
        else c }
  | none =>
    { σ with collections :=
        { id := cid, owner := ownerIfNew, metadata := md,
          createdAt := now, updatedAt := now } :: σ.collections }

/-- Modelled from the spec: `upsertItem` (§4.4) — keyed by
(collectionId, itemId): insertion if absent, full replace if present, with
`updatedAt` set to the commit time. -/
def upsertItem (σ : Store) (cid iid : String)
    (assets properties : List (String × String)) (now : Nat) : Store :=
  { σ with items :=
      { id := iid, collectionId := cid, assets := assets,
        properties := properties, updatedAt := now } ::
      σ.items.filter fun it => !(it.collectionId == cid && it.id == iid) }

/-- BatchLoader configuration (spec §4.2, §9): auto-create-on-missing flag
(`CREATE_COLLECTIONS_IF_MISSING`), batch count threshold and batch time
window. -/
structure LoaderConfig where
  autoCreate : Bool
  maxCount : Nat
  windowSeconds : Nat
deriving DecidableEq

/-- Terminal outcome of a Submission (§3): applied or dead-lettered with a
reason. -/
inductive Outcome where
  | applied
  | deadLettered (reason : Reason)
deriving DecidableEq

/-- Modelled from the spec: BatchLoader per-submission processing (§4.2
steps 1–3).  Step 1 runs the AccessControlGuard (both submission kinds are
upserts, so the operation kind is `create`); a DENY dead-letters the
submission with `Unauthorized` and leaves the store untouched.  Step 2
handles Collection submissions: create with `owner` from the origin
identity when absent and auto-create is enabled (dead-letter with
`CollectionNotFound` when disabled), merge metadata without changing
`owner` when present.  Step 3 handles Item submissions: schema validation
(`assets` non-empty, `collectionId` resolvable) dead-letters with
`SchemaInvalid`, then the idempotent upsert keyed by
(collectionId, itemId). -/
def processSubmission (cfg : LoaderConfig) (σ : Store) (now : Nat)
    (s : Submission) : Store × Outcome :=
  match accessControlGuard σ s.originIdentity s.body.targetCollectionId .create with
  | .DENY => (σ, .deadLettered .Unauthorized)
  | .ALLOW =>
    match s.body with
    | .collectionSub cid md =>
      match σ.getCollection cid with
      | some _ => (upsertCollection σ cid s.originIdentity md now, .applied)
      | none =>
        if cfg.autoCreate then
          (upsertCollection σ cid s.originIdentity md now, .applied)
        else (σ, .deadLettered .CollectionNotFound)
    | .itemSub cid iid assets props =>
      match σ.getCollection cid with
      | none => (σ, .deadLettered .SchemaInvalid)
      | some _ =>
        if assets.isEmpty then (σ, .deadLettered .SchemaInvalid)
        else (upsertItem σ cid iid assets props now, .applied)

/-- Modelled from the spec: batch processing (§4.2 step 4) — submissions
are applied in order, each outcome reported independently alongside the
submission. -/
def processBatch (cfg : LoaderConfig) (now : Nat) :
    Store → List Submission → Store × List (Submission × Outcome)
  | σ, [] => (σ, [])
  | σ, s :: rest =>
    let step := processSubmission cfg σ now s
    let restResult := processBatch cfg now step.1 rest
    (restResult.1, (s, step.2) :: restResult.2)

/-- The batch-assembly state of one BatchLoader worker: the buffered
submissions and the arrival time of the batch's first submission. -/
structure BatchState where
  buf : List Submission
  firstAt : Option Nat
deriving DecidableEq

/-- An event seen by the batch assembler: a submission arriving at time
`t`, or the clock reaching time `t` with no arrival. -/
inductive LoaderEvent where
  | arrive (t : Nat) (s : Submission)
  | tick (t : Nat)
deriving DecidableEq

/-- Modelled from the spec: the batching policy (§4.2) — close and flush a
Batch when EITHER the accumulated count reaches the configured maximum OR
the elapsed time since the batch's first Submission reaches the configured
window, whichever occurs first.  Returns the new state and the flushed
batch, if any. -/
def batchStep (cfg : LoaderConfig) (st : BatchState) :
    LoaderEvent → BatchState × Option (List Submission)
  | .arrive t s =>
    let buf := st.buf ++ [s]
    let firstAt := match st.firstAt with
      | some t0 => some t0
      | none => some t
    if cfg.maxCount ≤ buf.length then (⟨[], none⟩, some buf)
    else (⟨buf, firstAt⟩, none)
  | .tick t =>
    match st.firstAt with
    | some t0 =>
      if t0 + cfg.windowSeconds ≤ t ∧ st.buf ≠ [] then
        (⟨[], none⟩, some st.buf)
      else (st, none)
    | none => (st, none)

/-- Modelled from the spec: redelivery of one queued Submission (§4.2 step
5, §7).  `succeeds a` tells whether delivery attempt `a` (1-based)
succeeds; each failure increments the attempt counter and the submission
is redelivered while receive attempts remain.  Returns the terminal
outcome together with the number of attempts consumed. -/
def runRetriesAux (succeeds : Nat → Bool) (attempt : Nat) :
    Nat → Outcome × Nat
  | 0 => (.deadLettered .RetriesExhausted, attempt - 1)
  | remaining + 1 =>
    if succeeds attempt then (.applied, attempt)
    else runRetriesAux succeeds (attempt + 1) remaining

/-- Modelled from the spec: a Submission is delivered up to `maxReceive`
times; exhaustion routes to the DeadLetterSink with `RetriesExhausted`. -/
def runRetries (maxReceive : Nat) (succeeds : Nat → Bool) : Outcome × Nat :=
  runRetriesAux succeeds 1 maxReceive

/-- Modelled from the spec: a GenerationRequest as seen by the
default-collection rule (§4.1) — the submitting identity and the optional
explicit collection identifier. -/
structure GenerationRequest where
  originIdentity : String
  explicitCollectionId : Option String
deriving DecidableEq

/-- Modelled from the spec: the canonical default collection identifier of
an identity — the deterministic function `"user-" + username` (§4.1, §8). -/
def defaultCollectionId (identity : String) : String :=
  "user-" ++ identity

/-- Modelled from the spec: the target collection id of a
GenerationRequest — the explicit identifier when supplied, else the
submitting identity's default collection identifier (§4.1). -/
def resolveCollectionId (req : GenerationRequest) : String :=
  match req.explicitCollectionId with
  | some cid => cid
  | none => defaultCollectionId req.originIdentity

/-- Modelled from the spec: the Collection-create Submission the
ItemGenerator emits when the resolved collection does not yet exist
(§4.1); none when it already exists. -/
def generatorCollectionSubmissions (σ : Store) (req : GenerationRequest) :
    List Submission :=
  let cid := resolveCollectionId req
  match σ.getCollection cid with
  | some _ => []
  | none => [⟨.collectionSub cid [], req.originIdentity, 0⟩]

/-! ## Theorems -/

/-- The cross-account statements depend only on the positions and
`bucketArn` fields of the pairs, never on their `accountId` fields. -/
theorem crossAccount_enumFrom_congr (topicArn : String) (n : Nat)
    (l1 l2 : List AccountBucketPair)
    (h : l1.map AccountBucketPair.bucketArn = l2.map AccountBucketPair.bucketArn) :
    (l1.enumFrom n).map (crossAccountStatement topicArn)
      = (l2.enumFrom n).map (crossAccountStatement topicArn) := by
  induction l1 generalizing n l2 with
  | nil =>
    cases l2 with
    | nil => rfl
    | cons b t2 => simp at h
  | cons a t1 ih =>
    cases l2 with
    | nil => simp at h
    | cons b t2 =>
      simp only [List.map_cons, List.cons.injEq] at h
      simp only [List.enumFrom, List.map_cons]
      rw [List.cons.injEq]
      exact ⟨by simp [crossAccountStatement, h.1], ih (n + 1) t2 h.2⟩

/-- C9: for every `DpsStacItemGeneratorProps` value, the constructor sets
the SQS queue's visibility timeout to exactly
`(lambdaTimeoutSeconds ?? 120) + 10` seconds and the Lambda function's
timeout to exactly `(lambdaTimeoutSeconds ?? 120)` seconds, so the queue
visibility timeout always exceeds the Lambda timeout by exactly 10
seconds. -/
theorem dps_queue_visibility_exceeds_lambda_timeout
    (props : DpsStacItemGeneratorProps) (topicArn : String) :
    (dpsStacItemGeneratorConstruct props topicArn).queue.visibilityTimeoutSeconds
        = some (props.lambdaTimeoutSeconds.getD 120 + 10)
    ∧ (dpsStacItemGeneratorConstruct props topicArn).lambdaFunction.timeoutSeconds
        = props.lambdaTimeoutSeconds.getD 120
    ∧ (dpsStacItemGeneratorConstruct props topicArn).queue.visibilityTimeoutSeconds
        = some ((dpsStacItemGeneratorConstruct props topicArn).lambdaFunction.timeoutSeconds
                  + 10) :=
  ⟨rfl, rfl, rfl⟩

/-- C10: with a non-empty `allowedAccountBucketPairs` list,
`configureCrossAccountAccess` adds exactly one ALLOW statement per pair,
whose principal is the `s3.amazonaws.com` service principal and whose only
condition is `StringEquals` on `aws:SourceArn` equal to that pair's
`bucketArn`; and two props values whose pairs agree on `bucketArn` (so in
particular values differing only in the `accountId` fields) produce
identical topic resource policies. -/
theorem dps_cross_account_policy_ignores_account_id
    (props p1 p2 : DpsStacItemGeneratorProps) (topicArn : String)
    (pairs : List AccountBucketPair)
    (hpairs : props.allowedAccountBucketPairs = some pairs)
    (harns : p1.allowedAccountBucketPairs.map (fun l => l.map AccountBucketPair.bucketArn)
           = p2.allowedAccountBucketPairs.map (fun l => l.map AccountBucketPair.bucketArn)) :
    (configureCrossAccountAccess props topicArn).length = pairs.length
    ∧ (∀ i : Nat, (configureCrossAccountAccess props topicArn)[i]? =
        (pairs[i]?).map fun pair =>
          { sid := "AllowAccountBucketPair" ++ toString i ++ "Publish"
            isAllow := true
            principals := ["s3.amazonaws.com"]
            actions := ["SNS:Publish"]
            resources := [topicArn]
            conditionStringEquals := [("aws:SourceArn", pair.bucketArn)] })
    ∧ configureCrossAccountAccess p1 topicArn
        = configureCrossAccountAccess p2 topicArn := by
  refine ⟨?_, ?_, ?_⟩
  · by_cases h0 : pairs.length = 0
    · simp [configureCrossAccountAccess, hpairs, h0]
    · simp [configureCrossAccountAccess, hpairs, h0, List.enum_length]
  · intro i
    by_cases h0 : pairs.length = 0
    · rw [List.length_eq_zero] at h0
      simp [configureCrossAccountAccess, hpairs, h0]
    · simp only [configureCrossAccountAccess, hpairs, h0, if_false]
      rw [List.getElem?_map, List.getElem?_enum]
      cases pairs[i]? with
      | none => rfl
      | some pair => rfl
  · cases h1 : p1.allowedAccountBucketPairs with
    | none =>
      cases h2 : p2.allowedAccountBucketPairs with
      | none => simp [configureCrossAccountAccess, h1, h2]
      | some l2 => rw [h1, h2] at harns; simp at harns
    | some l1 =>
      cases h2 : p2.allowedAccountBucketPairs with
      | none => rw [h1, h2] at harns; simp at harns
      | some l2 =>
        rw [h1, h2] at harns
        simp only [Option.map_some', Option.some.injEq] at harns
        have hlen : l1.length = l2.length := by
          have := congrArg List.length harns
          simpa using this
        simp only [configureCrossAccountAccess, h1, h2, hlen]
        by_cases h0 : l2.length = 0
        · simp [h0]
        · simp only [h0, if_false, List.enum]
          exact crossAccount_enumFrom_congr topicArn 0 l1 l2 harns

/-- `find?` by id commutes with a map that preserves ids. -/
theorem find?_map_of_id_preserved (f : Collection → Collection)
    (hid : ∀ c, (f c).id = c.id) (cid : String) :
    ∀ l : List Collection,
      (l.map f).find? (fun c => c.id == cid)
        = (l.find? fun c => c.id == cid).map f
  | [] => rfl
  | a :: t => by
    simp only [List.map_cons, List.find?_cons]
    rw [hid a]
    cases h : (a.id == cid) with
    | true => rfl
    | false => exact find?_map_of_id_preserved f hid cid t

/-- `upsertCollection` never changes the `owner`, `id` or `createdAt` of
any stored collection. -/
theorem upsertCollection_preserves_owner (σ : Store) (cid owner2 : String)
    (md : List (String × String)) (now : Nat) (cid2 : String) (c2 : Collection)
    (h : σ.getCollection cid2 = some c2) :
    ∃ c3, (upsertCollection σ cid owner2 md now).getCollection cid2 = some c3
      ∧ c3.owner = c2.owner ∧ c3.id = c2.id ∧ c3.createdAt = c2.createdAt := by
  cases hc : σ.getCollection cid with
  | some c0 =>
    have hstore : upsertCollection σ cid owner2 md now
        = { σ with collections := σ.collections.map fun c =>
            if c.id == cid then
              { c with metadata := mergeMetadata c.metadata md, updatedAt := now }
            else c } := by
      unfold upsertCollection
      rw [hc]
    have hid : ∀ c : Collection,
        (if c.id == cid then
          { c with metadata := mergeMetadata c.metadata md, updatedAt := now }
        else c).id = c.id := by
      intro c
      by_cases hb : (c.id == cid) = true <;> simp [hb]
    have key := find?_map_of_id_preserved _ hid cid2 σ.collections
    by_cases hb : c2.id = cid
    · refine ⟨{ c2 with metadata := mergeMetadata c2.metadata md, updatedAt := now },
        ?_, rfl, rfl, rfl⟩
      rw [hstore]
      unfold Store.getCollection at h ⊢
      rw [key, h]
      simp [hb]
    · refine ⟨c2, ?_, rfl, rfl, rfl⟩
      rw [hstore]
      unfold Store.getCollection at h ⊢
      rw [key, h]
      simp [hb]
  | none =>
    have hstore : upsertCollection σ cid owner2 md now
        = { σ with collections :=
            { id := cid, owner := owner2, metadata := md,
              createdAt := now, updatedAt := now } :: σ.collections } := by
      unfold upsertCollection
      rw [hc]
    have hne : ¬(cid = cid2) := by
      intro hEq
      rw [hEq, h] at hc
      cases hc
    refine ⟨c2, ?_, rfl, rfl, rfl⟩
    rw [hstore]
    unfold Store.getCollection at h ⊢
    rw [List.find?_cons]
    dsimp only
    have hbne : (cid == cid2) = false := by simpa using hne
    rw [hbne]
    exact h

/-- The branch shape of `processSubmission`: the resulting store is the
input store, a collection upsert, or an item upsert. -/
theorem processSubmission_store_shape (cfg : LoaderConfig) (σ : Store)
    (now : Nat) (s : Submission) :
    (processSubmission cfg σ now s).1 = σ
    ∨ (∃ cid md, (processSubmission cfg σ now s).1
          = upsertCollection σ cid s.originIdentity md now)
    ∨ (∃ cid iid a p, (processSubmission cfg σ now s).1
          = upsertItem σ cid iid a p now) := by
  unfold processSubmission
  split
  · exact Or.inl rfl
  · split
    · split
      · exact Or.inr (Or.inl ⟨_, _, rfl⟩)
      · split
        · exact Or.inr (Or.inl ⟨_, _, rfl⟩)
        · exact Or.inl rfl
    · split
      · exact Or.inl rfl
      · split
        · exact Or.inl rfl
        · exact Or.inr (Or.inr ⟨_, _, _, _, rfl⟩)

/-- C1: a collection's `owner` field, set when the collection is created,
is never changed by any subsequent submission processing (collection
update, item upsert, metadata merge), regardless of the submitting
identity; `id` and `createdAt` are likewise preserved. -/
theorem collection_owner_never_changes (cfg : LoaderConfig) (σ : Store)
    (now : Nat) (s : Submission) (cid : String) (c : Collection)
    (h : σ.getCollection cid = some c) :
    ∃ c2, ((processSubmission cfg σ now s).1).getCollection cid = some c2
      ∧ c2.owner = c.owner ∧ c2.id = c.id ∧ c2.createdAt = c.createdAt := by
  rcases processSubmission_store_shape cfg σ now s with heq | ⟨cid2, md, heq⟩ |
    ⟨cid2, iid, a, p, heq⟩
  · exact ⟨c, by rw [heq]; exact h, rfl, rfl, rfl⟩
  · rw [heq]
    exact upsertCollection_preserves_owner σ cid2 s.originIdentity md now cid c h
  · rw [heq]
    exact ⟨c, h, rfl, rfl, rfl⟩

/-- A submission targeting an existing collection whose owner differs from
the origin identity is dead-lettered `Unauthorized` with the store
untouched. -/
theorem processSubmission_unauthorized (cfg : LoaderConfig) (σ : Store)
    (now : Nat) (s : Submission) (c : Collection)
    (hc : σ.getCollection s.body.targetCollectionId = some c)
    (hneq : c.owner ≠ s.originIdentity) :
    processSubmission cfg σ now s = (σ, .deadLettered .Unauthorized) := by
  have hg : accessControlGuard σ s.originIdentity
      s.body.targetCollectionId .create = .DENY := by
    unfold accessControlGuard
    rw [hc]
    simp [hneq]
  unfold processSubmission
  rw [hg]

/-- C2: a submission whose origin identity does not equal the recorded
owner of its (existing) target collection is dead-lettered with reason
`Unauthorized` and leaves the store unchanged; and the AccessControlGuard
returns ALLOW exactly when the origin identity equals the collection's
owner, or the collection does not exist and the operation kind is
create. -/
theorem unauthorized_submission_dead_lettered (cfg : LoaderConfig) (σ : Store)
    (now : Nat) (s : Submission) (c : Collection)
    (hc : σ.getCollection s.body.targetCollectionId = some c)
    (hneq : c.owner ≠ s.originIdentity) :
    processSubmission cfg σ now s = (σ, .deadLettered .Unauthorized)
    ∧ ∀ (σ2 : Store) (origin cid : String) (op : OpKind),
        accessControlGuard σ2 origin cid op = .ALLOW ↔
          ((∃ c2, σ2.getCollection cid = some c2 ∧ c2.owner = origin)
            ∨ (σ2.getCollection cid = none ∧ op = .create)) := by
  constructor
  · exact processSubmission_unauthorized cfg σ now s c hc hneq
  · intro σ2 origin cid op
    unfold accessControlGuard
    cases h2 : σ2.getCollection cid with
    | some c2 =>
      by_cases ho : c2.owner = origin
      · simp [ho]
      · simp [ho]
    | none =>
      cases op <;> simp

/-- An item submission that passes the guard and schema checks performs
the upsert. -/
theorem processSubmission_itemSub (cfg : LoaderConfig) (σ : Store) (now : Nat)
    (cid iid : String) (a p : List (String × String)) (origin : String)
    (att : Nat) (c : Collection)
    (hc : σ.getCollection cid = some c) (hown : c.owner = origin)
    (ha : a ≠ []) :
    processSubmission cfg σ now ⟨.itemSub cid iid a p, origin, att⟩
      = (upsertItem σ cid iid a p now, .applied) := by
  have hg : accessControlGuard σ origin cid .create = .ALLOW := by
    unfold accessControlGuard
    rw [hc]
    simp [hown]
  have hae : a.isEmpty = false := by
    cases a with
    | nil => exact absurd rfl ha
    | cons x t => rfl
  unfold processSubmission
  dsimp only [SubmissionBody.targetCollectionId]
  rw [hg, hc]
  simp [hae]

/-- After an item upsert, the store holds exactly one item for the key. -/
theorem filter_key_upsertItem (σ : Store) (cid iid : String)
    (a p : List (String × String)) (now : Nat) :
    ((upsertItem σ cid iid a p now).items.filter
        fun it => it.collectionId == cid && it.id == iid)
      = [{ id := iid, collectionId := cid, assets := a, properties := p,
           updatedAt := now }] := by
  have tail : ((σ.items.filter
        fun it => !(it.collectionId == cid && it.id == iid)).filter
        fun it => it.collectionId == cid && it.id == iid) = [] := by
    rw [List.filter_eq_nil_iff]
    intro a ha
    have hmem := (List.mem_filter.mp ha).2
    simp at hmem ⊢
    tauto
  unfold upsertItem
  dsimp only
  rw [List.filter_cons]
  rw [tail]
  simp

/-- C3: item upsert is idempotent — applying the same item submission
twice yields a store holding exactly one item for the key
(collectionId, itemId), every field of which except `updatedAt` equals the
result of applying it once; both applications succeed and the second
changes no collection. -/
theorem item_upsert_idempotent (cfg : LoaderConfig) (σ : Store) (n1 n2 : Nat)
    (cid iid : String) (a p : List (String × String)) (origin : String)
    (att : Nat) (c : Collection)
    (hc : σ.getCollection cid = some c) (hown : c.owner = origin)
    (ha : a ≠ []) :
    (processSubmission cfg σ n1 ⟨.itemSub cid iid a p, origin, att⟩).2 = .applied
    ∧ (processSubmission cfg
        (processSubmission cfg σ n1 ⟨.itemSub cid iid a p, origin, att⟩).1 n2
        ⟨.itemSub cid iid a p, origin, att⟩).2 = .applied
    ∧ ((processSubmission cfg
        (processSubmission cfg σ n1 ⟨.itemSub cid iid a p, origin, att⟩).1 n2
        ⟨.itemSub cid iid a p, origin, att⟩).1.items.filter
          fun it => it.collectionId == cid && it.id == iid)
        = [{ id := iid, collectionId := cid, assets := a, properties := p,
             updatedAt := n2 }]
    ∧ ((processSubmission cfg σ n1
          ⟨.itemSub cid iid a p, origin, att⟩).1.items.filter
          fun it => it.collectionId == cid && it.id == iid)
        = [{ id := iid, collectionId := cid, assets := a, properties := p,
             updatedAt := n1 }]
    ∧ (processSubmission cfg
        (processSubmission cfg σ n1 ⟨.itemSub cid iid a p, origin, att⟩).1 n2
        ⟨.itemSub cid iid a p, origin, att⟩).1.collections
        = (processSubmission cfg σ n1
            ⟨.itemSub cid iid a p, origin, att⟩).1.collections := by
  have h1 := processSubmission_itemSub cfg σ n1 cid iid a p origin att c hc hown ha
  have hc2 : (upsertItem σ cid iid a p n1).getCollection cid = some c := hc
  have h2 := processSubmission_itemSub cfg (upsertItem σ cid iid a p n1) n2
    cid iid a p origin att c hc2 hown ha
  rw [h1]
  dsimp only
  rw [h2]
  dsimp only
  exact ⟨rfl, rfl, filter_key_upsertItem (upsertItem σ cid iid a p n1) cid iid a p n2,
    filter_key_upsertItem σ cid iid a p n1, rfl⟩

/-- A collection submission for an absent collection is applied as a
creating upsert when auto-create is enabled. -/
theorem processSubmission_collectionSub_absent (cfg : LoaderConfig) (σ : Store)
    (now : Nat) (cid : String) (md : List (String × String)) (origin : String)
    (att : Nat) (hauto : cfg.autoCreate = true)
    (hc : σ.getCollection cid = none) :
    processSubmission cfg σ now ⟨.collectionSub cid md, origin, att⟩
      = (upsertCollection σ cid origin md now, .applied) := by
  have hg : accessControlGuard σ origin cid .create = .ALLOW := by
    unfold accessControlGuard
    rw [hc]
    simp
  unfold processSubmission
  dsimp only [SubmissionBody.targetCollectionId]
  rw [hg, hc]
  simp [hauto]

/-- A collection submission for a collection the origin identity owns is
applied as a metadata-merging upsert. -/
theorem processSubmission_collectionSub_present (cfg : LoaderConfig) (σ : Store)
    (now : Nat) (cid : String) (md : List (String × String)) (origin : String)
    (att : Nat) (c : Collection)
    (hc : σ.getCollection cid = some c) (hown : c.owner = origin) :
    processSubmission cfg σ now ⟨.collectionSub cid md, origin, att⟩
      = (upsertCollection σ cid origin md now, .applied) := by
  have hg : accessControlGuard σ origin cid .create = .ALLOW := by
    unfold accessControlGuard
    rw [hc]
    simp [hown]
  unfold processSubmission
  dsimp only [SubmissionBody.targetCollectionId]
  rw [hg, hc]

/-- Creating upsert: the collection appears with the submitted owner and
metadata and both timestamps set to the commit time. -/
theorem getCollection_upsertCollection_absent (σ : Store) (cid o : String)
    (md : List (String × String)) (now : Nat)
    (hc : σ.getCollection cid = none) :
    (upsertCollection σ cid o md now).getCollection cid
      = some { id := cid, owner := o, metadata := md,
               createdAt := now, updatedAt := now } := by
  have hstore : upsertCollection σ cid o md now
      = { σ with collections :=
          { id := cid, owner := o, metadata := md,
            createdAt := now, updatedAt := now } :: σ.collections } := by
    unfold upsertCollection
    rw [hc]
  rw [hstore]
  unfold Store.getCollection
  rw [List.find?_cons]
  dsimp only
  rw [show (cid == cid) = true from by simp]

/-- Updating upsert: the stored collection keeps its `owner` and
`createdAt`, gets the merged metadata and the new `updatedAt`. -/
theorem getCollection_upsertCollection_present (σ : Store) (cid o : String)
    (md : List (String × String)) (now : Nat) (c : Collection)
    (hc : σ.getCollection cid = some c) :
    (upsertCollection σ cid o md now).getCollection cid
      = some { c with
               metadata := mergeMetadata c.metadata md,
               updatedAt := now } := by
  have hstore : upsertCollection σ cid o md now
      = { σ with collections := σ.collections.map fun c2 =>
          if c2.id == cid then
            { c2 with metadata := mergeMetadata c2.metadata md, updatedAt := now }
          else c2 } := by
    unfold upsertCollection
    rw [hc]
  have hid : ∀ c2 : Collection,
      (if c2.id == cid then
        { c2 with metadata := mergeMetadata c2.metadata md, updatedAt := now }
      else c2).id = c2.id := by
    intro c2
    by_cases hb : (c2.id == cid) = true <;> simp [hb]
  have key := find?_map_of_id_preserved _ hid cid σ.collections
  have hcid : c.id = cid := by
    have hfound := List.find?_some hc
    simpa using hfound
  rw [hstore]
  unfold Store.getCollection at hc ⊢
  rw [key, hc]
  simp [hcid]

/-- C5 counterexample: with auto-create enabled, a collection submission
from "bob" targeting the existing collection "c1" owned by "alice" is
dead-lettered `Unauthorized` and its metadata is NOT merged, refuting the
unconditional merge the claim states for present collections. -/
theorem collection_submission_merge_counterexample :
    processSubmission ⟨true, 500, 5⟩
        ⟨[⟨"c1", "alice", [("title", "old")], 0, 0⟩], []⟩ 7
        ⟨.collectionSub "c1" [("title", "new")], "bob", 0⟩
      = (⟨[⟨"c1", "alice", [("title", "old")], 0, 0⟩], []⟩,
         .deadLettered .Unauthorized)
    ∧ ((processSubmission ⟨true, 500, 5⟩
        ⟨[⟨"c1", "alice", [("title", "old")], 0, 0⟩], []⟩ 7
        ⟨.collectionSub "c1" [("title", "new")], "bob", 0⟩).1.getCollection
          "c1").map Collection.metadata = some [("title", "old")] := by
  constructor
  · rfl
  · rfl

/-- C5 (amended): with auto-create enabled, a collection submission whose
target is absent creates it with `owner` taken from the origin identity;
when the target is present and the origin identity owns it, its metadata
fields are merged and its `owner` (and `createdAt`) are unchanged; when
the origin identity does not own it, the submission is dead-lettered
`Unauthorized` without mutation. -/
theorem collection_submission_auto_create (cfg : LoaderConfig) (σ : Store)
    (now : Nat) (cid : String) (md : List (String × String)) (origin : String)
    (att : Nat) (hauto : cfg.autoCreate = true) :
    (σ.getCollection cid = none →
      processSubmission cfg σ now ⟨.collectionSub cid md, origin, att⟩
        = (upsertCollection σ cid origin md now, .applied)
      ∧ (upsertCollection σ cid origin md now).getCollection cid
          = some ⟨cid, origin, md, now, now⟩)
    ∧ (∀ c, σ.getCollection cid = some c → c.owner = origin →
      processSubmission cfg σ now ⟨.collectionSub cid md, origin, att⟩
        = (upsertCollection σ cid origin md now, .applied)
      ∧ (upsertCollection σ cid origin md now).getCollection cid
          = some ⟨c.id, c.owner, mergeMetadata c.metadata md, c.createdAt, now⟩)
    ∧ (∀ c, σ.getCollection cid = some c → c.owner ≠ origin →
      processSubmission cfg σ now ⟨.collectionSub cid md, origin, att⟩
        = (σ, .deadLettered .Unauthorized)) := by
  refine ⟨?_, ?_, ?_⟩
  · intro hc
    exact ⟨processSubmission_collectionSub_absent cfg σ now cid md origin att hauto hc,
      getCollection_upsertCollection_absent σ cid origin md now hc⟩
  · intro c hc hown
    exact ⟨processSubmission_collectionSub_present cfg σ now cid md origin att c hc hown,
      getCollection_upsertCollection_present σ cid origin md now c hc⟩
  · intro c hc hneq
    exact processSubmission_unauthorized cfg σ now
      ⟨.collectionSub cid md, origin, att⟩ c hc
      (by simpa using fun h => hneq h)

/-- C4: the batch assembler closes and flushes exactly when the
accumulated count first reaches the configured maximum or the elapsed time
since the batch's first submission first reaches the configured window —
whichever occurs first: an arrival flushes iff it brings the count to the
maximum (for any clock time, so a full count never waits for the window),
and a tick flushes a non-empty batch iff the window has elapsed since the
batch's first arrival; the deployed maximum is 500. -/
theorem batch_flush_policy (cfg : LoaderConfig) (st : BatchState) (t : Nat)
    (s : Submission) (t0 : Nat)
    (hcount : st.buf.length + 1 ≤ cfg.maxCount)
    (hfirst : st.firstAt = some t0) :
    ((batchStep cfg st (.arrive t s)).2 = some (st.buf ++ [s])
        ↔ st.buf.length + 1 = cfg.maxCount)
    ∧ ((batchStep cfg st (.arrive t s)).2 = none
        ↔ st.buf.length + 1 < cfg.maxCount)
    ∧ ((batchStep cfg st (.tick t)).2 = some st.buf
        ↔ (t0 + cfg.windowSeconds ≤ t ∧ st.buf ≠ []))
    ∧ stacLoaderDeploymentBatchSize = 500 := by
  refine ⟨?_, ?_, ?_, rfl⟩
  · simp only [batchStep]
    by_cases h : cfg.maxCount ≤ (st.buf ++ [s]).length
    · rw [if_pos h]
      simp only [List.length_append, List.length_cons, List.length_nil] at h
      constructor
      · intro _
        omega
      · intro _
        rfl
    · rw [if_neg h]
      simp only [List.length_append, List.length_cons, List.length_nil] at h
      constructor
      · intro hcon
        cases hcon
      · intro heq
        exact absurd heq (by omega)
  · simp only [batchStep]
    by_cases h : cfg.maxCount ≤ (st.buf ++ [s]).length
    · rw [if_pos h]
      simp only [List.length_append, List.length_cons, List.length_nil] at h
      constructor
      · intro hcon
        cases hcon
      · intro hlt
        exact absurd hlt (by omega)
    · rw [if_neg h]
      simp only [List.length_append, List.length_cons, List.length_nil] at h
      constructor
      · intro _
        omega
      · intro _
        rfl
  · simp only [batchStep, hfirst]
    by_cases h : (t0 + cfg.windowSeconds ≤ t ∧ st.buf ≠ [])
    · rw [if_pos h]
      simp [h]
    · rw [if_neg h]
      simp [h]

/-- A failed attempt consumes one receive and redelivers with the attempt
counter incremented. -/
theorem runRetriesAux_step (succeeds : Nat → Bool) (attempt fuel : Nat)
    (h : succeeds attempt = false) :
    runRetriesAux succeeds attempt (fuel + 1)
      = runRetriesAux succeeds (attempt + 1) fuel := by
  conv_lhs => rw [runRetriesAux]
  rw [h]
  simp

/-- A successful attempt terminates with `applied` at the current attempt
number. -/
theorem runRetriesAux_success (succeeds : Nat → Bool) (attempt fuel : Nat)
    (h : succeeds attempt = true) :
    runRetriesAux succeeds attempt (fuel + 1) = (.applied, attempt) := by
  unfold runRetriesAux
  rw [h]
  simp

/-- Every delivery terminates as applied or dead-lettered
`RetriesExhausted` — never silently dropped. -/
theorem runRetriesAux_total (succeeds : Nat → Bool) :
    ∀ (fuel attempt : Nat),
      (runRetriesAux succeeds attempt fuel).1 = .applied
      ∨ (runRetriesAux succeeds attempt fuel).1 = .deadLettered .RetriesExhausted
  | 0, attempt => Or.inr rfl
  | fuel + 1, attempt => by
    cases h : succeeds attempt with
    | true =>
      rw [runRetriesAux_success succeeds attempt fuel h]
      exact Or.inl rfl
    | false =>
      rw [runRetriesAux_step succeeds attempt fuel h]
      exact runRetriesAux_total succeeds fuel (attempt + 1)

/-- Delivery succeeds at the first successful attempt within the budget. -/
theorem runRetriesAux_first_success (succeeds : Nat → Bool) :
    ∀ (fuel attempt k : Nat), attempt ≤ k → k < attempt + fuel →
      succeeds k = true → (∀ j, attempt ≤ j → j < k → succeeds j = false) →
      runRetriesAux succeeds attempt fuel = (.applied, k)
  | 0, _, _, _, h2, _, _ => absurd h2 (by omega)
  | fuel + 1, attempt, k, h1, h2, hk, hj => by
    by_cases he : attempt = k
    · subst he
      exact runRetriesAux_success succeeds attempt fuel hk
    · have hf : succeeds attempt = false := hj attempt le_rfl (by omega)
      rw [runRetriesAux_step succeeds attempt fuel hf]
      exact runRetriesAux_first_success succeeds fuel (attempt + 1) k (by omega)
        (by omega) hk (fun j hj1 hj2 => hj j (by omega) hj2)

/-- Exhausting the whole receive budget dead-letters with
`RetriesExhausted` after the last attempt. -/
theorem runRetriesAux_all_fail (succeeds : Nat → Bool) :
    ∀ (fuel attempt : Nat),
      (∀ j, attempt ≤ j → j < attempt + fuel → succeeds j = false) →
      runRetriesAux succeeds attempt fuel
        = (.deadLettered .RetriesExhausted, attempt + fuel - 1)
  | 0, attempt, _ => by simp [runRetriesAux]
  | fuel + 1, attempt, hall => by
    have hf : succeeds attempt = false := hall attempt le_rfl (by omega)
    rw [runRetriesAux_step succeeds attempt fuel hf]
    rw [runRetriesAux_all_fail succeeds fuel (attempt + 1)
      (fun j hj1 hj2 => hall j (by omega) (by omega))]
    congr 1
    omega

/-- C6: a transiently failing submission is redelivered with its attempt
counter incremented, up to the configured maximum receive count (5 in this
deployment, from the queue's dead-letter configuration); exhausting all 5
attempts dead-letters it with `RetriesExhausted`, an attempt succeeding
within the budget applies it, and every submission reaches one of those
two terminal outcomes — never a silent drop. -/
theorem transient_failure_retry_policy (succeeds : Nat → Bool) :
    (∀ (props : DpsStacItemGeneratorProps) (topicArn : String),
      (dpsStacItemGeneratorConstruct props topicArn).queue.deadLetterMaxReceiveCount
        = some 5)
    ∧ (∀ attempt fuel, succeeds attempt = false →
        runRetriesAux succeeds attempt (fuel + 1)
          = runRetriesAux succeeds (attempt + 1) fuel)
    ∧ ((∀ k, 1 ≤ k → k ≤ 5 → succeeds k = false) →
        runRetries 5 succeeds = (.deadLettered .RetriesExhausted, 5))
    ∧ (∀ k, 1 ≤ k → k ≤ 5 → succeeds k = true →
        (∀ j, 1 ≤ j → j < k → succeeds j = false) →
        runRetries 5 succeeds = (.applied, k))
    ∧ ((runRetries 5 succeeds).1 = .applied
        ∨ (runRetries 5 succeeds).1 = .deadLettered .RetriesExhausted) := by
  refine ⟨fun props topicArn => rfl,
    fun attempt fuel h => runRetriesAux_step succeeds attempt fuel h,
    ?_, ?_, runRetriesAux_total succeeds 5 1⟩
  · intro hall
    have h := runRetriesAux_all_fail succeeds 5 1
      (fun j h1 h2 => hall j h1 (by omega))
    exact h
  · intro k h1 h2 hk hj
    exact runRetriesAux_first_success succeeds 5 1 k h1 (by omega) hk hj

/-- Batch processing splits over concatenation: the second part runs from
the store the first part produced, and the outcome reports concatenate. -/
theorem processBatch_append (cfg : LoaderConfig) (now : Nat) :
    ∀ (l1 l2 : List Submission) (σ : Store),
      processBatch cfg now σ (l1 ++ l2)
        = ((processBatch cfg now (processBatch cfg now σ l1).1 l2).1,
           (processBatch cfg now σ l1).2
             ++ (processBatch cfg now (processBatch cfg now σ l1).1 l2).2)
  | [], l2, σ => by simp [processBatch]
  | s :: t, l2, σ => by
    simp only [List.cons_append, processBatch, List.append_eq]
    rw [processBatch_append cfg now t l2]

/-- A schema-invalid item submission (empty asset map) that passes the
guard is dead-lettered `SchemaInvalid` with the store untouched. -/
theorem processSubmission_malformed (cfg : LoaderConfig) (σ : Store)
    (now : Nat) (cid iid : String) (p : List (String × String))
    (origin : String) (att : Nat)
    (hallow : accessControlGuard σ origin cid .create = .ALLOW) :
    processSubmission cfg σ now ⟨.itemSub cid iid [] p, origin, att⟩
      = (σ, .deadLettered .SchemaInvalid) := by
  unfold processSubmission
  dsimp only [SubmissionBody.targetCollectionId]
  rw [hallow]
  cases hc : σ.getCollection cid with
  | none => rfl
  | some c => rfl

/-- C7: inserting one malformed submission into a batch leaves every
sibling's outcome and the final store exactly as in the batch without it:
the malformed submission is dead-lettered `SchemaInvalid`, and if all
submissions of the batch without it are applied, then in the batch with it
every submission is applied except the malformed one. -/
theorem batch_partial_failure_isolation (cfg : LoaderConfig) (σ : Store)
    (now : Nat) (pre post : List Submission) (cid iid : String)
    (p : List (String × String)) (origin : String) (att : Nat)
    (hallow : accessControlGuard (processBatch cfg now σ pre).1 origin cid
        .create = .ALLOW) :
    processBatch cfg now σ (pre ++ ⟨.itemSub cid iid [] p, origin, att⟩ :: post)
      = ((processBatch cfg now (processBatch cfg now σ pre).1 post).1,
         (processBatch cfg now σ pre).2
           ++ (⟨.itemSub cid iid [] p, origin, att⟩, .deadLettered .SchemaInvalid)
             :: (processBatch cfg now (processBatch cfg now σ pre).1 post).2)
    ∧ processBatch cfg now σ (pre ++ post)
      = ((processBatch cfg now (processBatch cfg now σ pre).1 post).1,
         (processBatch cfg now σ pre).2
           ++ (processBatch cfg now (processBatch cfg now σ pre).1 post).2)
    ∧ (processBatch cfg now σ
        (pre ++ ⟨.itemSub cid iid [] p, origin, att⟩ :: post)).1
      = (processBatch cfg now σ (pre ++ post)).1
    ∧ ((∀ o ∈ (processBatch cfg now σ (pre ++ post)).2, o.2 = .applied) →
        ∀ o ∈ (processBatch cfg now σ
            (pre ++ ⟨.itemSub cid iid [] p, origin, att⟩ :: post)).2,
          o.2 = .applied
          ∨ o = (⟨.itemSub cid iid [] p, origin, att⟩,
                 .deadLettered .SchemaInvalid)) := by
  have hstep : processBatch cfg now (processBatch cfg now σ pre).1
      (⟨.itemSub cid iid [] p, origin, att⟩ :: post)
      = ((processBatch cfg now (processBatch cfg now σ pre).1 post).1,
         (⟨.itemSub cid iid [] p, origin, att⟩, .deadLettered .SchemaInvalid)
           :: (processBatch cfg now (processBatch cfg now σ pre).1 post).2) := by
    simp only [processBatch]
    rw [processSubmission_malformed cfg (processBatch cfg now σ pre).1 now
      cid iid p origin att hallow]
  have hA := processBatch_append cfg now pre
    (⟨.itemSub cid iid [] p, origin, att⟩ :: post) σ
  rw [hstep] at hA
  have hB := processBatch_append cfg now pre post σ
  refine ⟨hA, hB, by rw [hA, hB], ?_⟩
  intro hall o ho
  rw [hB] at hall
  rw [hA] at ho
  dsimp only at ho hall
  rcases List.mem_append.mp ho with hin | hin
  · exact Or.inl (hall o (List.mem_append.mpr (Or.inl hin)))
  · rcases List.mem_cons.mp hin with hin2 | hin2
    · exact Or.inr hin2
    · exact Or.inl (hall o (List.mem_append.mpr (Or.inr hin2)))

/-- C8: a generation request from identity `u` with no explicit collection
identifier resolves to the deterministic collection id `"user-" ++ u`; on
first use (the collection absent) the generator emits a Collection-create
submission with origin `u`, whose processing (auto-create enabled) creates
the collection with `owner = u`. -/
theorem default_collection_derivation (cfg : LoaderConfig) (σ : Store)
    (now : Nat) (u : String) (hauto : cfg.autoCreate = true)
    (habsent : σ.getCollection ("user-" ++ u) = none) :
    resolveCollectionId ⟨u, none⟩ = "user-" ++ u
    ∧ generatorCollectionSubmissions σ ⟨u, none⟩
        = [⟨.collectionSub ("user-" ++ u) [], u, 0⟩]
    ∧ processSubmission cfg σ now ⟨.collectionSub ("user-" ++ u) [], u, 0⟩
        = (upsertCollection σ ("user-" ++ u) u [] now, .applied)
    ∧ (upsertCollection σ ("user-" ++ u) u [] now).getCollection ("user-" ++ u)
        = some ⟨"user-" ++ u, u, [], now, now⟩ := by
  refine ⟨rfl, ?_, ?_, ?_⟩
  · simp only [generatorCollectionSubmissions, resolveCollectionId,
      defaultCollectionId]
    rw [habsent]
  · exact processSubmission_collectionSub_absent cfg σ now ("user-" ++ u) []
      u 0 hauto habsent
  · exact getCollection_upsertCollection_absent σ ("user-" ++ u) u [] now habsent

/-! ## Witnesses: concrete instantiations of the hypothesised theorems -/

/-- Witness for C1 at a concrete store and submission. -/
theorem collection_owner_never_changes_witness :
    ∃ c2, ((processSubmission ⟨true, 500, 5⟩
        ⟨[⟨"c1", "alice", [], 0, 0⟩], []⟩ 3
        ⟨.collectionSub "c1" [("title", "x")], "alice", 0⟩).1).getCollection "c1"
          = some c2
      ∧ c2.owner = "alice" ∧ c2.id = "c1" ∧ c2.createdAt = 0 :=
  collection_owner_never_changes ⟨true, 500, 5⟩
    ⟨[⟨"c1", "alice", [], 0, 0⟩], []⟩ 3
    ⟨.collectionSub "c1" [("title", "x")], "alice", 0⟩ "c1"
    ⟨"c1", "alice", [], 0, 0⟩ rfl

/-- Witness for C2 at a concrete store and submission. -/
theorem unauthorized_submission_dead_lettered_witness :
    processSubmission ⟨true, 500, 5⟩ ⟨[⟨"c1", "alice", [], 0, 0⟩], []⟩ 3
        ⟨.collectionSub "c1" [], "bob", 0⟩
      = (⟨[⟨"c1", "alice", [], 0, 0⟩], []⟩, .deadLettered .Unauthorized) :=
  (unauthorized_submission_dead_lettered ⟨true, 500, 5⟩
    ⟨[⟨"c1", "alice", [], 0, 0⟩], []⟩ 3 ⟨.collectionSub "c1" [], "bob", 0⟩
    ⟨"c1", "alice", [], 0, 0⟩ rfl (by decide)).1

/-- Witness for C3 at a concrete store and item submission. -/
theorem item_upsert_idempotent_witness :
    (processSubmission ⟨true, 500, 5⟩ ⟨[⟨"c1", "alice", [], 0, 0⟩], []⟩ 3
        ⟨.itemSub "c1" "i1" [("data", "s3://b/x.tif")] [], "alice", 0⟩).2
      = .applied :=
  (item_upsert_idempotent ⟨true, 500, 5⟩ ⟨[⟨"c1", "alice", [], 0, 0⟩], []⟩ 3 4
    "c1" "i1" [("data", "s3://b/x.tif")] [] "alice" 0
    ⟨"c1", "alice", [], 0, 0⟩ rfl rfl (by decide)).1

/-- Witness for C4 at a concrete batching state. -/
theorem batch_flush_policy_witness :
    ((batchStep ⟨true, 2, 10⟩ ⟨[⟨.collectionSub "a" [], "u", 0⟩], some 3⟩
        (.arrive 20 ⟨.collectionSub "b" [], "u", 0⟩)).2
      = some ([⟨.collectionSub "a" [], "u", 0⟩] ++ [⟨.collectionSub "b" [], "u", 0⟩])
      ↔ ([⟨.collectionSub "a" [], "u", 0⟩] : List Submission).length + 1 = 2) :=
  (batch_flush_policy ⟨true, 2, 10⟩ ⟨[⟨.collectionSub "a" [], "u", 0⟩], some 3⟩
    20 ⟨.collectionSub "b" [], "u", 0⟩ 3 (by decide) rfl).1

/-- Witness for C5 (amended) at a concrete absent collection. -/
theorem collection_submission_auto_create_witness :
    processSubmission ⟨true, 500, 5⟩ ⟨[], []⟩ 4
        ⟨.collectionSub "c2" [("title", "v")], "carol", 0⟩
      = (upsertCollection ⟨[], []⟩ "c2" "carol" [("title", "v")] 4, .applied) :=
  ((collection_submission_auto_create ⟨true, 500, 5⟩ ⟨[], []⟩ 4 "c2"
    [("title", "v")] "carol" 0 rfl).1 rfl).1

/-- Witness for C6 with a delivery that always fails. -/
theorem transient_failure_retry_policy_witness :
    runRetries 5 (fun _ => false) = (.deadLettered .RetriesExhausted, 5) :=
  (transient_failure_retry_policy (fun _ => false)).2.2.1 (fun _ _ _ => rfl)

/-- Witness for C7 with a singleton malformed batch over the empty store. -/
theorem batch_partial_failure_isolation_witness :
    (processBatch ⟨true, 500, 5⟩ 1 ⟨[], []⟩
        ([] ++ ⟨.itemSub "c" "i" [] [], "u", 0⟩ :: [])).1
      = (processBatch ⟨true, 500, 5⟩ 1 ⟨[], []⟩ ([] ++ [])).1 :=
  (batch_partial_failure_isolation ⟨true, 500, 5⟩ ⟨[], []⟩ 1 [] []
    "c" "i" [] "u" 0 rfl).2.2.1

/-- Witness for C8 for identity "alice" on the empty store. -/
theorem default_collection_derivation_witness :
    resolveCollectionId ⟨"alice", none⟩ = "user-" ++ "alice"
    ∧ generatorCollectionSubmissions ⟨[], []⟩ ⟨"alice", none⟩
        = [⟨.collectionSub ("user-" ++ "alice") [], "alice", 0⟩] :=
  ⟨(default_collection_derivation ⟨true, 500, 5⟩ ⟨[], []⟩ 2 "alice" rfl rfl).1,
   (default_collection_derivation ⟨true, 500, 5⟩ ⟨[], []⟩ 2 "alice" rfl rfl).2.1⟩

/-- Witness for C10 with two pairs differing only in account ids. -/
theorem dps_cross_account_policy_ignores_account_id_witness :
    (configureCrossAccountAccess
        ⟨none, none, none, none, [], "arn:t",
         some [⟨"111111111111", "arn:aws:s3:::b1"⟩,
               ⟨"222222222222", "arn:aws:s3:::b2"⟩], "arn:r"⟩ "arn:t").length = 2
    ∧ configureCrossAccountAccess
        ⟨none, none, none, none, [], "arn:t",
         some [⟨"111111111111", "arn:aws:s3:::b1"⟩,
               ⟨"222222222222", "arn:aws:s3:::b2"⟩], "arn:r"⟩ "arn:t"
      = configureCrossAccountAccess
        ⟨none, none, none, none, [], "arn:t",
         some [⟨"333333333333", "arn:aws:s3:::b1"⟩,
               ⟨"444444444444", "arn:aws:s3:::b2"⟩], "arn:r"⟩ "arn:t" :=
  ⟨(dps_cross_account_policy_ignores_account_id
      ⟨none, none, none, none, [], "arn:t",
       some [⟨"111111111111", "arn:aws:s3:::b1"⟩,
             ⟨"222222222222", "arn:aws:s3:::b2"⟩], "arn:r"⟩
      ⟨none, none, none, none, [], "arn:t",
       some [⟨"111111111111", "arn:aws:s3:::b1"⟩,
             ⟨"222222222222", "arn:aws:s3:::b2"⟩], "arn:r"⟩
      ⟨none, none, none, none, [], "arn:t",
       some [⟨"333333333333", "arn:aws:s3:::b1"⟩,
             ⟨"444444444444", "arn:aws:s3:::b2"⟩], "arn:r"⟩ "arn:t"
      [⟨"111111111111", "arn:aws:s3:::b1"⟩, ⟨"222222222222", "arn:aws:s3:::b2"⟩]
      rfl rfl).1,
   (dps_cross_account_policy_ignores_account_id
      ⟨none, none, none, none, [], "arn:t",
       some [⟨"111111111111", "arn:aws:s3:::b1"⟩,
             ⟨"222222222222", "arn:aws:s3:::b2"⟩], "arn:r"⟩
      ⟨none, none, none, none, [], "arn:t",
       some [⟨"111111111111", "arn:aws:s3:::b1"⟩,
             ⟨"222222222222", "arn:aws:s3:::b2"⟩], "arn:r"⟩
      ⟨none, none, none, none, [], "arn:t",
       some [⟨"333333333333", "arn:aws:s3:::b1"⟩,
             ⟨"444444444444", "arn:aws:s3:::b2"⟩], "arn:r"⟩ "arn:t"
      [⟨"111111111111", "arn:aws:s3:::b1"⟩, ⟨"222222222222", "arn:aws:s3:::b2"⟩]
      rfl rfl).2.2⟩

end MaapEoapi
